import Mathlib

/-!
Shallow embedding of the review-scoring pipeline in `src/main.py`:
`fetch_restaurant_data`, `extract_restaurant_scores` (with its inner
`get_score`), `calculate_overall_score`, and the query-normalization
helper `get_data_fetch_agent_prompt`.

Python strings are modelled as `List Char`; `str.lower` as a character
map (the inputs of interest are ASCII, where the two agree); the data
file read by `fetch_restaurant_data` is passed in as the list of its
lines.  Real (floating-point) arithmetic in `calculate_overall_score`
is modelled over `ℝ`; the `f"{score:.3f}"` formatting is modelled as
rounding to integer thousandths.
-/

/-- `str.lower` (ASCII): lowercase every character. -/
def lower (s : List Char) : List Char :=
  s.map Char.toLower

/-- `s.startswith(pat)` on character lists. -/
def isPref : List Char → List Char → Bool
  | [], _ => true
  | _ :: _, [] => false
  | a :: as, b :: bs => a == b && isPref as bs

/-- Python's `pat in s`: `pat` occurs as a contiguous substring of `s`
(the empty pattern occurs in every string, as in Python). -/
def containsSub (pat : List Char) : List Char → Bool
  | [] => pat.isEmpty
  | c :: cs => isPref pat (c :: cs) || containsSub pat cs

/-- `s.split('.')`: split on every `'.'`; always returns at least one
(possibly empty) segment, like Python's `str.split` on a separator. -/
def splitOnDot : List Char → List (List Char)
  | [] => [[]]
  | c :: cs =>
    if c = '.' then [] :: splitOnDot cs
    else
      match splitOnDot cs with
      | [] => [[c]]
      | p :: ps => (c :: p) :: ps

/-- `s.strip()`: drop whitespace from both ends. -/
def trim (s : List Char) : List Char :=
  ((s.dropWhile Char.isWhitespace).reverse.dropWhile Char.isWhitespace).reverse

/-- The `score_keywords` dict of `extract_restaurant_scores`, as the
ordered association list Python iterates over (insertion order 1..5). -/
def score_keywords : List (ℕ × List (List Char)) :=
  [(1, ["awful".toList, "horrible".toList, "disgusting".toList]),
   (2, ["bad".toList, "unpleasant".toList, "offensive".toList]),
   (3, ["average".toList, "uninspiring".toList, "forgettable".toList]),
   (4, ["good".toList, "enjoyable".toList, "satisfying".toList]),
   (5, ["awesome".toList, "incredible".toList, "amazing".toList])]

/-- The `for score, keywords in score_keywords.items()` loop of
`get_score`: first entry with a keyword occurring in the lowercased
segment wins; default 3. -/
def get_score_loop : List (ℕ × List (List Char)) → List Char → ℕ
  | [], _ => 3
  | (score, keywords) :: rest, segment =>
    if keywords.any (fun k => containsSub k (lower segment)) then score
    else get_score_loop rest segment

/-- `get_score` from `src/main.py`. -/
def get_score (segment : List Char) : ℕ :=
  get_score_loop score_keywords segment

/-- The review loop of `extract_restaurant_scores`: split each review on
`'.'`; with at least 2 segments, score segment 0 (food) and segment 1
(service); otherwise drop the review from both lists. -/
def extract_loop : List (List Char) → List ℕ × List ℕ
  | [] => ([], [])
  | r :: rs =>
    match splitOnDot r with
    | s0 :: s1 :: _ =>
      (get_score (trim s0) :: (extract_loop rs).1,
       get_score (trim s1) :: (extract_loop rs).2)
    | _ => extract_loop rs

/-- `extract_restaurant_scores` from `src/main.py`. -/
def extract_restaurant_scores (restaurant_name : List Char)
    (reviews : List (List Char)) : List Char × List ℕ × List ℕ :=
  (restaurant_name, (extract_loop reviews).1, (extract_loop reviews).2)

/-- `line.split(sep, 1)` when the separator occurs: the part before the
first occurrence of `sep` and the part after it; `none` when `sep` does
not occur (Python then returns the one-element list, which the caller
skips via its `len(parts) != 2` check). -/
def splitOnFirst (sep : List Char) : List Char → Option (List Char × List Char)
  | [] => none
  | c :: cs =>
    if isPref sep (c :: cs) then some ([], (c :: cs).drop sep.length)
    else
      match splitOnFirst sep cs with
      | some (a, b) => some (c :: a, b)
      | none => none

/-- The `for line in file` loop of `fetch_restaurant_data`: strip the
line, split at the first `". "`; keep the review part when the name part
equals the query case-insensitively; skip malformed lines. -/
def fetch_loop (restaurant_name : List Char) : List (List Char) → List (List Char)
  | [] => []
  | line :: rest =>
    match splitOnFirst (". ".toList) (trim line) with
    | some (current_restaurant, review) =>
      if lower current_restaurant = lower restaurant_name then
        review :: fetch_loop restaurant_name rest
      else fetch_loop restaurant_name rest
    | none => fetch_loop restaurant_name rest

/-- `fetch_restaurant_data` from `src/main.py`, with the lines of
`restaurant-data.txt` passed in as `fileLines` (the function's one read
of the external file). Returns the singleton dict `{name: reviews}` as
a pair. -/
def fetch_restaurant_data (fileLines : List (List Char))
    (restaurant_name : List Char) : List Char × List (List Char) :=
  (restaurant_name, fetch_loop restaurant_name fileLines)

/-- Python's `s.replace(pat, rep)` (replace every occurrence, scanning
left to right, non-overlapping), written with a fuel argument so that it
is structurally recursive; `listReplace` below supplies fuel `s.length`,
which always suffices since each step consumes at least one character. -/
def replaceAux (pat rep : List Char) : Nat → List Char → List Char
  | _, [] => if pat = [] then rep else []
  | 0, s => s
  | fuel + 1, c :: cs =>
    if pat ≠ [] ∧ isPref pat (c :: cs) = true then
      rep ++ replaceAux pat rep fuel ((c :: cs).drop pat.length)
    else if pat = [] then
      rep ++ c :: replaceAux pat rep fuel cs
    else
      c :: replaceAux pat rep fuel cs

/-- `s.replace(pat, rep)` on character lists. -/
def listReplace (pat rep s : List Char) : List Char :=
  replaceAux pat rep s.length s

/-- The `restaurant_mappings` dict of `get_data_fetch_agent_prompt`, as
the ordered association list Python iterates over (insertion order). -/
def restaurant_mappings : List (List Char × List Char) :=
  [("mcdonalds".toList, "McDonald's".toList),
   ("mcdonald".toList, "McDonald's".toList),
   ("mc donalds".toList, "McDonald's".toList),
   ("subway".toList, "Subway".toList),
   ("in n out".toList, "In-N-Out".toList),
   ("innout".toList, "In-N-Out".toList),
   ("burger king".toList, "Burger King".toList),
   ("burgerking".toList, "Burger King".toList),
   ("kfc".toList, "KFC".toList),
   ("kentucky fried chicken".toList, "KFC".toList),
   ("wendys".toList, "Wendy's".toList),
   ("taco bell".toList, "Taco Bell".toList),
   ("tacobell".toList, "Taco Bell".toList),
   ("chipotle".toList, "Chipotle".toList),
   ("five guys".toList, "Five Guys".toList),
   ("fiveguys".toList, "Five Guys".toList),
   ("popeyes".toList, "Popeyes".toList),
   ("chick fil a".toList, "Chick-fil-A".toList),
   ("chickfila".toList, "Chick-fil-A".toList)]

/-- The `for incorrect, correct in restaurant_mappings.items()` loop of
`get_data_fetch_agent_prompt`: on the first key occurring in the
lowercased query, return the lowercased query with every occurrence of
that key replaced by the canonical name; if no key matches, return the
original query unchanged. -/
def normalize_loop (query_lower restaurant_query : List Char) :
    List (List Char × List Char) → List Char
  | [] => restaurant_query
  | (incorrect, correct) :: rest =>
    if containsSub incorrect query_lower then
      listReplace incorrect correct query_lower
    else normalize_loop query_lower restaurant_query rest

/-- `get_data_fetch_agent_prompt` from `src/main.py`. -/
def get_data_fetch_agent_prompt (restaurant_query : List Char) : List Char :=
  normalize_loop (lower restaurant_query) restaurant_query restaurant_mappings

/-- Result value of `calculate_overall_score`: the empty-list branch
returns the bare Python float literal `0.000` (`raw`), while the
non-empty branch returns the string `f"{score:.3f}"`, modelled as the
rounded integer number of thousandths it displays (`formatted`). -/
inductive ScoreValue : Type where
  | raw : ℝ → ScoreValue
  | formatted : ℤ → ScoreValue

/-- The `sum(math.sqrt(food_score ** 2 * service_score) for ... in
zip(food_scores, customer_service_scores))` of `calculate_overall_score`. -/
noncomputable def overall_sum (food_scores customer_service_scores : List ℤ) : ℝ :=
  ((food_scores.zip customer_service_scores).map
    (fun p => Real.sqrt ((p.1 : ℝ) ^ 2 * (p.2 : ℝ)))).sum

/-- `f"{score:.3f}"` as the integer number of thousandths displayed:
round to nearest thousandth (the values arising here are far from ties,
where Python's round-half-even and round-half-up agree). -/
noncomputable def round3 (x : ℝ) : ℤ :=
  ⌊x * 1000 + 1 / 2⌋

/-- `calculate_overall_score` from `src/main.py`: validate lengths, then
ranges, return `0.000` (a raw float) for empty input, otherwise the
formatted score string. -/
noncomputable def calculate_overall_score (restaurant_name : List Char)
    (food_scores customer_service_scores : List ℤ) :
    Except String (List Char × ScoreValue) :=
  if food_scores.length ≠ customer_service_scores.length then
    .error "Food scores and customer service scores must have the same length"
  else if ¬ (∀ score ∈ food_scores ++ customer_service_scores, 1 ≤ score ∧ score ≤ 5) then
    .error "All scores must be between 1 and 5"
  else if food_scores.length = 0 then
    .ok (restaurant_name, .raw 0)
  else
    .ok (restaurant_name,
      .formatted (round3 (overall_sum food_scores customer_service_scores *
        (1 / ((food_scores.length : ℝ) * Real.sqrt 125)) * 10)))

/-- Modelled from the spec (§4.2): a segment's score is the first tier,
in ascending order 1→5, any of whose keywords occurs as a substring of
the lowercased segment, defaulting to 3. Second definition for the
refinement claim about `get_score`. -/
def spec_segment_score (segment : List Char) : ℕ :=
  if ["awful".toList, "horrible".toList, "disgusting".toList].any
      (fun k => containsSub k (lower segment)) then 1
  else if ["bad".toList, "unpleasant".toList, "offensive".toList].any
      (fun k => containsSub k (lower segment)) then 2
  else if ["average".toList, "uninspiring".toList, "forgettable".toList].any
      (fun k => containsSub k (lower segment)) then 3
  else if ["good".toList, "enjoyable".toList, "satisfying".toList].any
      (fun k => containsSub k (lower segment)) then 4
  else if ["awesome".toList, "incredible".toList, "amazing".toList].any
      (fun k => containsSub k (lower segment)) then 5
  else 3

lemma overall_sum_one_to_five :
    overall_sum [1,2,3,4,5] [1,2,3,4,5]
    = 9 + 2 * Real.sqrt 2 + 3 * Real.sqrt 3 + 5 * Real.sqrt 5 := by
  simp [overall_sum]
  rw [show ((4:ℝ) = 2 ^ 2) by norm_num, Real.sqrt_sq (by norm_num)]
  ring

lemma sqrt125_eq : Real.sqrt 125 = 5 * Real.sqrt 5 := by
  rw [show ((125:ℝ) = 5 ^ 2 * 5) by norm_num,
    Real.sqrt_mul (by positivity), Real.sqrt_sq (by norm_num)]

lemma round3_one_to_five :
    round3 (overall_sum [1,2,3,4,5] [1,2,3,4,5] *
      (1 / ((([1,2,3,4,5] : List ℤ).length : ℝ) * Real.sqrt 125)) * 10) = 5045 := by
  have h2l : (1.4142135 : ℝ) < Real.sqrt 2 := (Real.lt_sqrt (by norm_num)).mpr (by norm_num)
  have h2u : Real.sqrt 2 < 1.4142136 := (Real.sqrt_lt' (by norm_num)).mpr (by norm_num)
  have h3l : (1.7320508 : ℝ) < Real.sqrt 3 := (Real.lt_sqrt (by norm_num)).mpr (by norm_num)
  have h3u : Real.sqrt 3 < 1.7320509 := (Real.sqrt_lt' (by norm_num)).mpr (by norm_num)
  have h5l : (2.2360679 : ℝ) < Real.sqrt 5 := (Real.lt_sqrt (by norm_num)).mpr (by norm_num)
  have h5u : Real.sqrt 5 < 2.2360680 := (Real.sqrt_lt' (by norm_num)).mpr (by norm_num)
  have hc : (0 : ℝ) < Real.sqrt 5 := Real.sqrt_pos.mpr (by norm_num)
  have hlen : ((([1,2,3,4,5] : List ℤ).length : ℕ) : ℝ) = 5 := by norm_num
  rw [overall_sum_one_to_five, sqrt125_eq, hlen, round3]
  have hE : (9 + 2 * Real.sqrt 2 + 3 * Real.sqrt 3 + 5 * Real.sqrt 5) *
      (1 / ((5 : ℝ) * (5 * Real.sqrt 5))) * 10 * 1000
      = (400 * (9 + 2 * Real.sqrt 2 + 3 * Real.sqrt 3 + 5 * Real.sqrt 5)) / Real.sqrt 5 := by
    field_simp
    ring
  rw [Int.floor_eq_iff, hE]
  constructor
  · have h : (5044.5 : ℝ) * Real.sqrt 5
        ≤ 400 * (9 + 2 * Real.sqrt 2 + 3 * Real.sqrt 3 + 5 * Real.sqrt 5) := by
      linarith
    have h' := (le_div_iff₀ hc).mpr h
    push_cast
    linarith
  · have h : 400 * (9 + 2 * Real.sqrt 2 + 3 * Real.sqrt 3 + 5 * Real.sqrt 5)
        < (5045.5 : ℝ) * Real.sqrt 5 := by
      linarith
    have h' := (div_lt_iff₀ hc).mpr h
    push_cast
    linarith

/-- Full evaluation of the aggregator on the reference input: the
formula yields 5.04544..., which formats to 5045 thousandths. -/
lemma calculate_one_to_five :
    calculate_overall_score ("X".toList) [1,2,3,4,5] [1,2,3,4,5]
    = Except.ok ("X".toList, ScoreValue.formatted 5045) := by
  unfold calculate_overall_score
  rw [if_neg (by decide), if_neg (by decide), if_neg (by decide), round3_one_to_five]

/-- Evaluation of the aggregator on two empty lists: the raw float
`0.000` comes back, not a formatted string. -/
lemma calculate_empty :
    calculate_overall_score ("X".toList) [] []
    = Except.ok ("X".toList, ScoreValue.raw 0) := by
  unfold calculate_overall_score
  rw [if_neg (by decide), if_neg (by decide), if_pos (by decide)]

example : get_score ("The food was awful".toList) = 1 := by decide
example : get_score ("The service was incredible".toList) = 5 := by decide
example : get_score ("nothing special here".toList) = 3 := by decide
example : splitOnDot ("a.b".toList) = ["a".toList, "b".toList] := by decide
example : splitOnDot ("The food was good.".toList)
    = ["The food was good".toList, [] ] := by decide
example :
    extract_restaurant_scores ("X".toList)
      ["The food was awful. The service was incredible.".toList]
    = ("X".toList, [1], [5]) := by decide
example :
    fetch_loop ("mcdonald's".toList)
      ["McDonald's. Food was bad.".toList, "Subway. Food was good.".toList]
    = ["Food was bad.".toList] := by decide
example :
    get_data_fetch_agent_prompt ("How good is mcdonalds?".toList)
    = "how good is McDonald's?".toList := by decide
example :
    get_data_fetch_agent_prompt ("Tell me about some random place".toList)
    = "Tell me about some random place".toList := by decide
example :
    get_data_fetch_agent_prompt ("Is mcdonalds better than mcdonalds?".toList)
    = "is McDonald's better than McDonald's?".toList := by decide
example :
    get_data_fetch_agent_prompt ("mcdonalds and subway".toList)
    = "McDonald's and subway".toList := by decide

lemma get_score_loop_default (table : List (ℕ × List (List Char))) (segment : List Char)
    (h : ∀ p ∈ table, (p.2.any fun k => containsSub k (lower segment)) = false) :
    get_score_loop table segment = 3 := by
  induction table with
  | nil => rfl
  | cons p rest ih =>
    obtain ⟨score, keywords⟩ := p
    have h0 := h (score, keywords) (List.mem_cons_self _ _)
    simp only [get_score_loop, h0, if_false, Bool.false_eq_true]
    exact ih fun q hq => h q (List.mem_cons_of_mem _ hq)

lemma extract_loop_skip (r : List Char) (rest : List (List Char))
    (h : (splitOnDot r).length < 2) :
    extract_loop (r :: rest) = extract_loop rest := by
  cases hs : splitOnDot r with
  | nil => simp [extract_loop, hs]
  | cons s0 t =>
    cases t with
    | nil => simp [extract_loop, hs]
    | cons s1 t2 =>
      rw [hs] at h
      simp only [List.length_cons] at h
      omega

lemma extract_loop_lengths (rs : List (List Char)) :
    (extract_loop rs).1.length = (extract_loop rs).2.length ∧
    (extract_loop rs).1.length ≤ rs.length := by
  induction rs with
  | nil => simp [extract_loop]
  | cons r rest ih =>
    cases hs : splitOnDot r with
    | nil =>
      have e : extract_loop (r :: rest) = extract_loop rest := by
        simp [extract_loop, hs]
      rw [e]
      exact ⟨ih.1, ih.2.trans (Nat.le_succ _)⟩
    | cons s0 t =>
      cases t with
      | nil =>
        have e : extract_loop (r :: rest) = extract_loop rest := by
          simp [extract_loop, hs]
        rw [e]
        exact ⟨ih.1, ih.2.trans (Nat.le_succ _)⟩
      | cons s1 t2 =>
        have e : extract_loop (r :: rest)
            = (get_score (trim s0) :: (extract_loop rest).1,
               get_score (trim s1) :: (extract_loop rest).2) := by
          simp [extract_loop, hs]
        rw [e]
        simp only [List.length_cons]
        exact ⟨by rw [ih.1], Nat.succ_le_succ ih.2⟩

lemma fetch_loop_congr (q q' : List Char) (h : lower q = lower q')
    (lines : List (List Char)) :
    fetch_loop q lines = fetch_loop q' lines := by
  induction lines with
  | nil => rfl
  | cons line rest ih =>
    cases hs : splitOnFirst (". ".toList) (trim line) with
    | none =>
      have hs' : splitOnFirst ['.', ' '] (trim line) = none := hs
      simp [fetch_loop, hs', ih]
    | some p =>
      obtain ⟨n, rv⟩ := p
      have hs' : splitOnFirst ['.', ' '] (trim line) = some (n, rv) := hs
      simp [fetch_loop, hs', h, ih]

lemma splitOnDot_append_dot (s : List Char) (h : '.' ∉ s) :
    splitOnDot (s ++ ['.']) = [s, []] := by
  induction s with
  | nil => rfl
  | cons c cs ih =>
    have hc : ¬ (c = '.') := fun e => h (e ▸ List.mem_cons_self c cs)
    have hcs : '.' ∉ cs := fun m => h (List.mem_cons_of_mem _ m)
    simp only [List.cons_append, splitOnDot, if_neg hc]
    rw [show cs.append ['.'] = cs ++ ['.'] from rfl, ih hcs]

lemma replaceAux_nil (pat rep : List Char) (f : ℕ) :
    replaceAux pat rep f [] = if pat = [] then rep else [] := by
  cases f <;> rfl

lemma replaceAux_cons (pat rep : List Char) (f : ℕ) (c : Char) (cs : List Char) :
    replaceAux pat rep (f + 1) (c :: cs)
    = if pat ≠ [] ∧ isPref pat (c :: cs) = true then
        rep ++ replaceAux pat rep f ((c :: cs).drop pat.length)
      else if pat = [] then rep ++ c :: replaceAux pat rep f cs
      else c :: replaceAux pat rep f cs := rfl

lemma replaceAux_congr (pat rep : List Char) :
    ∀ (f₁ : ℕ) (s : List Char) (f₂ : ℕ), s.length ≤ f₁ → s.length ≤ f₂ →
      replaceAux pat rep f₁ s = replaceAux pat rep f₂ s := by
  intro f₁
  induction f₁ with
  | zero =>
    intro s f₂ h1 _
    have hs : s = [] := List.eq_nil_of_length_eq_zero (Nat.le_zero.mp h1)
    subst hs
    rw [replaceAux_nil, replaceAux_nil]
  | succ f ih =>
    intro s f₂ h1 h2
    cases s with
    | nil => rw [replaceAux_nil, replaceAux_nil]
    | cons c cs =>
      cases f₂ with
      | zero => simp at h2
      | succ f₂' =>
        rw [replaceAux_cons, replaceAux_cons]
        simp only [List.length_cons] at h1 h2
        by_cases hm : pat ≠ [] ∧ isPref pat (c :: cs) = true
        · rw [if_pos hm, if_pos hm]
          have hp : 1 ≤ pat.length := by
            cases pat
            · exact absurd rfl hm.1
            · simp
          have hd : ((c :: cs).drop pat.length).length ≤ cs.length := by
            simp only [List.length_drop, List.length_cons]
            omega
          congr 1
          exact ih _ _ (hd.trans (by omega)) (hd.trans (by omega))
        · rw [if_neg hm, if_neg hm]
          by_cases he : pat = []
          · rw [if_pos he, if_pos he]
            have := ih cs f₂' (by omega) (by omega)
            rw [this]
          · rw [if_neg he, if_neg he]
            rw [ih cs f₂' (by omega) (by omega)]

lemma isPref_self_append (l s : List Char) : isPref l (l ++ s) = true := by
  induction l with
  | nil => rfl
  | cons a as ih => simp [isPref, ih]

lemma listReplace_cons_of_no_match (pat rep : List Char) (c : Char) (cs : List Char)
    (h1 : pat ≠ []) (h2 : isPref pat (c :: cs) = false) :
    listReplace pat rep (c :: cs) = c :: listReplace pat rep cs := by
  unfold listReplace
  rw [List.length_cons, replaceAux_cons,
    if_neg (fun hm => by rw [h2] at hm; exact Bool.false_ne_true hm.2), if_neg h1]

lemma listReplace_append_self (pat rep s : List Char) (h : pat ≠ []) :
    listReplace pat rep (pat ++ s) = rep ++ listReplace pat rep s := by
  obtain ⟨p, pt, rfl⟩ : ∃ p pt, pat = p :: pt := by
    cases pat
    · exact absurd rfl h
    · exact ⟨_, _, rfl⟩
  unfold listReplace
  rw [show ((p :: pt) ++ s) = p :: (pt ++ s) from rfl,
    show (p :: (pt ++ s)).length = (pt.length + s.length) + 1 by simp,
    replaceAux_cons,
    if_pos ⟨h, by simpa using isPref_self_append (p :: pt) s⟩,
    show ((p :: (pt ++ s)).drop (p :: pt).length) = (pt ++ s).drop pt.length by simp,
    List.drop_left,
    replaceAux_congr (p :: pt) rep _ s s.length (by omega) (by omega)]

lemma normalize_loop_first (ql q : List Char) :
    ∀ (ms₁ ms₂ : List (List Char × List Char)) (incorrect correct : List Char),
      (∀ p ∈ ms₁, containsSub p.1 ql = false) → containsSub incorrect ql = true →
      normalize_loop ql q (ms₁ ++ (incorrect, correct) :: ms₂)
      = listReplace incorrect correct ql := by
  intro ms₁
  induction ms₁ with
  | nil =>
    intro ms₂ incorrect correct _ hinc
    simp [normalize_loop, hinc]
  | cons p rest ih =>
    intro ms₂ incorrect correct hnone hinc
    obtain ⟨pinc, pcor⟩ := p
    have h0 := hnone (pinc, pcor) (List.mem_cons_self _ _)
    simp only [List.cons_append, normalize_loop, h0, Bool.false_eq_true, if_false]
    exact ih ms₂ incorrect correct
      (fun r hr => hnone r (List.mem_cons_of_mem _ hr)) hinc

/-- C1 (counterexample): on food = service = [1,2,3,4,5],
`calculate_overall_score` does not return the formatted value "5.048":
the formula evaluates to 5.04544..., which formats to "5.045". -/
theorem counterexample_C1 :
    calculate_overall_score ("X".toList) [1,2,3,4,5] [1,2,3,4,5]
    ≠ Except.ok ("X".toList, ScoreValue.formatted 5048) := by
  rw [calculate_one_to_five]
  simp

/-- C1 (amended): for restaurant_name = "X", food_scores = [1,2,3,4,5],
service_scores = [1,2,3,4,5], `calculate_overall_score` returns the
mapping {"X": "5.045"}: the formula
sum(sqrt(food[i]^2 * service[i])) * (1/(N*sqrt(125))) * 10 formatted to
exactly 3 decimal places yields "5.045" (not "5.048") on this input. -/
theorem claim_C1 :
    calculate_overall_score ("X".toList) [1,2,3,4,5] [1,2,3,4,5]
    = Except.ok ("X".toList, ScoreValue.formatted 5045) :=
  calculate_one_to_five

/-- C2 (counterexample): on two empty lists, `calculate_overall_score`
does not return the string "0.000" in the same string-formatted form as
the non-empty result (it returns the bare float literal `0.000`). -/
theorem counterexample_C2 :
    calculate_overall_score ("X".toList) [] []
    ≠ Except.ok ("X".toList, ScoreValue.formatted 0) := by
  rw [calculate_empty]
  simp

/-- C2 (amended): when both input lists are empty, validation passes and
`calculate_overall_score` succeeds, returning the restaurant name bound
to the raw numeric value 0.0 (the Python float literal `0.000`), not a
three-decimal formatted string: the string formatting is applied only on
the non-empty path. -/
theorem claim_C2 :
    calculate_overall_score ("X".toList) [] []
    = Except.ok ("X".toList, ScoreValue.raw 0) :=
  calculate_empty

/-- C3 (counterexample): `get_data_fetch_agent_prompt` on
"How good is mcdonalds?" neither returns a fully lowercased string nor
one containing "mcdonald's": the substitution inserts the canonical
"McDonald's", whose capitals survive. -/
theorem counterexample_C3 :
    get_data_fetch_agent_prompt ("How good is mcdonalds?".toList)
      ≠ lower (get_data_fetch_agent_prompt ("How good is mcdonalds?".toList))
    ∧ containsSub ("mcdonald's".toList)
        (get_data_fetch_agent_prompt ("How good is mcdonalds?".toList)) = false := by
  constructor
  · decide
  · decide

/-- C3 (amended): for the input "How good is mcdonalds?",
`get_data_fetch_agent_prompt` lowercases the whole query and replaces
the matched substring "mcdonalds" with the canonical form, returning
"how good is McDonald's?", which contains "McDonald's" (with its
canonical capitalization, so the result is not fully lowercase). -/
theorem claim_C3 :
    get_data_fetch_agent_prompt ("How good is mcdonalds?".toList)
      = "how good is McDonald's?".toList
    ∧ containsSub ("McDonald's".toList)
        (get_data_fetch_agent_prompt ("How good is mcdonalds?".toList)) = true := by
  constructor
  · decide
  · decide

/-- C4: `calculate_overall_score` fails with the length-mismatch error
for every pair of lists of differing lengths, and with the
score-out-of-range error for every pair of equal-length lists containing
a value outside [1,5]; in either case only an error (no mapping) comes
back. -/
theorem claim_C4 (restaurant_name : List Char) (food_scores customer_service_scores : List ℤ) :
    (food_scores.length ≠ customer_service_scores.length →
      calculate_overall_score restaurant_name food_scores customer_service_scores
      = Except.error "Food scores and customer service scores must have the same length")
    ∧ (food_scores.length = customer_service_scores.length →
       ¬ (∀ score ∈ food_scores ++ customer_service_scores, 1 ≤ score ∧ score ≤ 5) →
       calculate_overall_score restaurant_name food_scores customer_service_scores
       = Except.error "All scores must be between 1 and 5") := by
  constructor
  · intro h
    unfold calculate_overall_score
    rw [if_pos h]
  · intro hlen hrange
    unfold calculate_overall_score
    rw [if_neg (by simpa using hlen), if_pos hrange]

/-- C4 (witness): [1] vs [] mismatch raises the length error; score 0
and score 6 each raise the range error. -/
theorem witness_C4 :
    calculate_overall_score ("X".toList) [1] []
      = Except.error "Food scores and customer service scores must have the same length"
    ∧ calculate_overall_score ("X".toList) [0] [2]
      = Except.error "All scores must be between 1 and 5"
    ∧ calculate_overall_score ("X".toList) [3] [6]
      = Except.error "All scores must be between 1 and 5" :=
  ⟨(claim_C4 ("X".toList) [1] []).1 (by decide),
   (claim_C4 ("X".toList) [0] [2]).2 (by decide) (by decide),
   (claim_C4 ("X".toList) [3] [6]).2 (by decide) (by decide)⟩

/-- C5: `get_score` computes exactly the spec's first-matching-tier
score (ascending 1→5, defaulting to 3); a segment with no keyword of any
tier scores exactly 3; the concrete segment containing both "bad" and
"good" scores 2 (the lower tier is checked first). -/
theorem claim_C5 :
    (∀ segment, get_score segment = spec_segment_score segment)
    ∧ (∀ segment,
        (∀ p ∈ score_keywords, ∀ k ∈ p.2, containsSub k (lower segment) = false) →
        get_score segment = 3)
    ∧ get_score ("The food was bad but the service was good".toList) = 2 := by
  refine ⟨fun segment => rfl, fun segment h => ?_, by decide⟩
  apply get_score_loop_default
  intro p hp
  rw [List.any_eq_false]
  intro k hk
  simp [h p hp k hk]

/-- C5 (witness): a keyword-free segment scores the default 3. -/
theorem witness_C5 :
    get_score ("The weather was cloudy".toList) = 3 :=
  claim_C5.2.1 ("The weather was cloudy".toList) (by decide)

/-- C6: the two score lists of `extract_restaurant_scores` always have
equal length, that length is at most the review count, and a review
whose split on '.' yields fewer than 2 segments contributes to neither
list (it is dropped without error). -/
theorem claim_C6 (restaurant_name : List Char) (reviews : List (List Char)) :
    (extract_restaurant_scores restaurant_name reviews).2.1.length
      = (extract_restaurant_scores restaurant_name reviews).2.2.length
    ∧ (extract_restaurant_scores restaurant_name reviews).2.1.length ≤ reviews.length
    ∧ ∀ r, (splitOnDot r).length < 2 →
        extract_restaurant_scores restaurant_name (r :: reviews)
        = extract_restaurant_scores restaurant_name reviews := by
  refine ⟨(extract_loop_lengths reviews).1, (extract_loop_lengths reviews).2,
    fun r hr => ?_⟩
  unfold extract_restaurant_scores
  rw [extract_loop_skip r reviews hr]

/-- C6 (witness): a dot-free review is dropped from both lists. -/
theorem witness_C6 :
    extract_restaurant_scores ("X".toList) ["no dot here".toList]
    = extract_restaurant_scores ("X".toList) [] :=
  (claim_C6 ("X".toList) []).2.2 ("no dot here".toList) (by decide)

/-- C7: `fetch_restaurant_data` returns identical review lists for any
two case-variants of the query, and a parsed line matches exactly when
its name segment equals the query after lowercasing both sides (lines
without the ". " separator match nothing). -/
theorem claim_C7 :
    (∀ (fileLines : List (List Char)) (q q' : List Char), lower q = lower q' →
      (fetch_restaurant_data fileLines q).2 = (fetch_restaurant_data fileLines q').2)
    ∧ (∀ (q line n r : List Char),
        splitOnFirst (". ".toList) (trim line) = some (n, r) →
        fetch_loop q [line] = if lower n = lower q then [r] else [])
    ∧ (∀ (q line : List Char),
        splitOnFirst (". ".toList) (trim line) = none →
        fetch_loop q [line] = []) := by
  refine ⟨fun fileLines q q' h => fetch_loop_congr q q' h fileLines,
    fun q line n r hs => ?_, fun q line hs => ?_⟩
  · have hs' : splitOnFirst ['.', ' '] (trim line) = some (n, r) := hs
    simp only [fetch_loop, hs']
    split
    · simp_all [fetch_loop]
    · simp_all [fetch_loop]
  · have hs' : splitOnFirst ['.', ' '] (trim line) = none := hs
    simp [fetch_loop, hs']

/-- C7 (witness): querying "mcdonald's" and "McDonald's" against the
same two-line source yields the same review list. -/
theorem witness_C7 :
    (fetch_restaurant_data
      ["McDonald's. Food was bad.".toList, "Subway. Food was good.".toList]
      ("mcdonald's".toList)).2
    = (fetch_restaurant_data
      ["McDonald's. Food was bad.".toList, "Subway. Food was good.".toList]
      ("McDonald's".toList)).2 :=
  claim_C7.1 ["McDonald's. Food was bad.".toList, "Subway. Food was good.".toList]
    ("mcdonald's".toList) ("McDonald's".toList) (by decide)

/-- C8: a one-sentence review ending in a period is not dropped: the
split yields the sentence plus a trailing empty segment (2 segments), so
the review contributes the food score of its sentence and the default
service score 3 from the empty second segment. -/
theorem claim_C8 (restaurant_name s : List Char) (h : '.' ∉ s) :
    (splitOnDot (s ++ ['.'])).length = 2
    ∧ extract_restaurant_scores restaurant_name [s ++ ['.']]
      = (restaurant_name, [get_score (trim s)], [3]) := by
  have hsplit := splitOnDot_append_dot s h
  refine ⟨by rw [hsplit]; rfl, ?_⟩
  unfold extract_restaurant_scores
  have e : extract_loop [s ++ ['.']]
      = (get_score (trim s) :: (extract_loop []).1,
         get_score (trim []) :: (extract_loop []).2) := by
    simp [extract_loop, hsplit]
  rw [e]
  simp [extract_loop]
  decide

/-- C8 (witness): "The food was good." is kept, scoring food 4 and
service 3. -/
theorem witness_C8 :
    extract_restaurant_scores ("X".toList) ["The food was good.".toList]
    = ("X".toList, [4], [3]) := by
  have h := (claim_C8 ("X".toList) ("The food was good".toList) (by decide)).2
  rw [show ("The food was good".toList ++ ['.']) = "The food was good.".toList
    from by decide] at h
  rw [h]
  decide

/-- C9: when the two lists both differ in length and contain an
out-of-range value, the length check fires first: the error is the
length-mismatch one, not the range one. -/
theorem claim_C9 (restaurant_name : List Char) (food_scores customer_service_scores : List ℤ)
    (hlen : food_scores.length ≠ customer_service_scores.length)
    (hrange : ¬ (∀ score ∈ food_scores ++ customer_service_scores, 1 ≤ score ∧ score ≤ 5)) :
    calculate_overall_score restaurant_name food_scores customer_service_scores
    = Except.error "Food scores and customer service scores must have the same length" := by
  unfold calculate_overall_score
  rw [if_pos hlen]

/-- C9 (witness): [0] vs [] has both defects and raises the length
error. -/
theorem witness_C9 :
    calculate_overall_score ("X".toList) [0] []
    = Except.error "Food scores and customer service scores must have the same length" :=
  claim_C9 ("X".toList) [0] [] (by decide) (by decide)

/-- C10: for every query on which a mapping key matches, only the first
matching entry is ever applied — the result is `listReplace` of that one
key over the whole lowercased query, for any decomposition of the
mapping into non-matching earlier entries, the first matching entry, and
arbitrary (never consulted) later entries — and `listReplace` replaces
every occurrence of the key, not only the first: at an occurrence it
substitutes the replacement and keeps scanning the rest, and elsewhere
it keeps the character and keeps scanning. Concretely, a query
containing "mcdonalds" twice has both occurrences replaced. -/
theorem claim_C10 :
    (∀ (restaurant_query : List Char) (ms₁ ms₂ : List (List Char × List Char))
        (incorrect correct : List Char),
        restaurant_mappings = ms₁ ++ (incorrect, correct) :: ms₂ →
        (∀ p ∈ ms₁, containsSub p.1 (lower restaurant_query) = false) →
        containsSub incorrect (lower restaurant_query) = true →
        get_data_fetch_agent_prompt restaurant_query
          = listReplace incorrect correct (lower restaurant_query))
    ∧ (∀ pat rep s, pat ≠ [] →
        listReplace pat rep (pat ++ s) = rep ++ listReplace pat rep s)
    ∧ (∀ pat rep c cs, pat ≠ [] → isPref pat (c :: cs) = false →
        listReplace pat rep (c :: cs) = c :: listReplace pat rep cs)
    ∧ get_data_fetch_agent_prompt ("Is mcdonalds better than mcdonalds?".toList)
      = "is McDonald's better than McDonald's?".toList := by
  refine ⟨fun restaurant_query ms₁ ms₂ incorrect correct hdec hnone hinc => ?_,
    fun pat rep s h => listReplace_append_self pat rep s h,
    fun pat rep c cs h1 h2 => listReplace_cons_of_no_match pat rep c cs h1 h2,
    by decide⟩
  unfold get_data_fetch_agent_prompt
  rw [hdec]
  exact normalize_loop_first (lower restaurant_query) restaurant_query
    ms₁ ms₂ incorrect correct hnone hinc

/-- C10 (witness): the first-matching-entry characterization applied at
the double-occurrence query with the "mcdonalds" entry first, and the
two `listReplace` scanning equations at concrete inputs. -/
theorem witness_C10 :
    get_data_fetch_agent_prompt ("Is mcdonalds better than mcdonalds?".toList)
      = listReplace ("mcdonalds".toList) ("McDonald's".toList)
          (lower ("Is mcdonalds better than mcdonalds?".toList))
    ∧ listReplace ("mcdonalds".toList) ("McDonald's".toList)
        ("mcdonalds".toList ++ " here".toList)
      = "McDonald's".toList
        ++ listReplace ("mcdonalds".toList) ("McDonald's".toList) (" here".toList)
    ∧ listReplace ("mcdonalds".toList) ("McDonald's".toList) ('a' :: "bc".toList)
      = 'a' :: listReplace ("mcdonalds".toList) ("McDonald's".toList) ("bc".toList) :=
  ⟨claim_C10.1 ("Is mcdonalds better than mcdonalds?".toList) []
    restaurant_mappings.tail ("mcdonalds".toList) ("McDonald's".toList)
    rfl (by simp) (by decide),
   claim_C10.2.1 ("mcdonalds".toList) ("McDonald's".toList) (" here".toList) (by decide),
   claim_C10.2.2.1 ("mcdonalds".toList) ("McDonald's".toList) 'a' ("bc".toList)
    (by decide) (by decide)⟩
